import Mathlib

/-!
Verification of the LSM-demo cost-model engine: a shallow embedding of the
arithmetic in src/app.py (the update-cost model, the speedup sweep over the
index count, and the workload tradeoff model), with theorems checking the
natural-language specification against it.  Integer inputs from the UI are
modelled as `ℤ`; floating-point results of the formulas as `ℝ`.
-/

namespace LSMDemo

/-- Embeds `mem_part = 1` from src/app.py (abstract unit for one
memory-resident probe). -/
def mem_part : ℤ := 1

/-- Embeds `disk_part = np.log10(max(1, N_tuples - m_memtable)) * disk_seek_cost`
from src/app.py.  The `max` is taken over the integers, as in the source, and
only the logarithm and the product are real-valued. -/
noncomputable def disk_part (N m d : ℤ) : ℝ :=
  Real.logb 10 ((max 1 (N - m) : ℤ) : ℝ) * (d : ℝ)

/-- Embeds `regular_cost_val = mem_part + disk_part + (mem_part * (2 * K_indexes - 1))`
from src/app.py. -/
noncomputable def regular_cost_val (N m K d : ℤ) : ℝ :=
  (mem_part : ℝ) + disk_part N m d + ((mem_part : ℝ) * (2 * (K : ℝ) - 1))

/-- Embeds `deferred_cost_val = (mem_part * K_indexes)` from src/app.py. -/
def deferred_cost_val (K : ℤ) : ℤ := mem_part * K

/-- Embeds `speedup_factor = regular_cost_val / max(1, deferred_cost_val)`
from src/app.py.  The guard `max(1, ...)` is integer `max`, as in the source. -/
noncomputable def speedup_factor (N m K d : ℤ) : ℝ :=
  regular_cost_val N m K d / ((max 1 (deferred_cost_val K) : ℤ) : ℝ)

/-- The disk penalty exactly as the spec words it:
`disk_penalty = log10(max(1, N - m)) * disk_seek_cost`. -/
noncomputable def spec_disk_penalty (N m d : ℤ) : ℝ :=
  Real.logb 10 ((max 1 (N - m) : ℤ) : ℝ) * (d : ℝ)

/-- The regular update cost exactly as the spec words it:
`regular_cost = mem_unit + disk_penalty + mem_unit * (2K - 1)` with
`mem_unit = 1`. -/
noncomputable def spec_regular_cost (N m K d : ℤ) : ℝ :=
  1 + spec_disk_penalty N m d + 1 * (2 * (K : ℝ) - 1)

/-- Claim C1: for every ParameterSet with `N ≥ 1`, `1 ≤ m < N`, `K ≥ 1` and
`disk_seek_cost ≥ 1`, the regular update cost computed by the code equals
`mem_unit + disk_penalty + mem_unit * (2K - 1)` with `mem_unit = 1` and
`disk_penalty = log10(max(1, N - m)) * disk_seek_cost`. -/
theorem regular_cost_matches_spec (N m K d : ℤ)
    (hN : 1 ≤ N) (hm1 : 1 ≤ m) (hmN : m < N) (hK : 1 ≤ K) (hd : 1 ≤ d) :
    regular_cost_val N m K d = spec_regular_cost N m K d := by
  simp [regular_cost_val, spec_regular_cost, spec_disk_penalty, disk_part, mem_part]

/-- Witness for C1 at `N = 2, m = 1, K = 1, d = 1`. -/
theorem regular_cost_matches_spec_witness :
    (1 ≤ (2 : ℤ) ∧ 1 ≤ (1 : ℤ) ∧ (1 : ℤ) < 2) ∧
      regular_cost_val 2 1 1 1 = spec_regular_cost 2 1 1 1 :=
  ⟨⟨by decide, by decide, by decide⟩,
    regular_cost_matches_spec 2 1 1 1 (by decide) (by decide) (by decide) (by decide)
      (by decide)⟩

/-- Claim C2: for every valid ParameterSet (in particular `K ≥ 1`), the
deferred cost equals exactly `K`, the speedup equals `regular_cost / K`, and
the divisor is guarded to be at least 1 (in particular even at `K = 0`). -/
theorem deferred_cost_and_speedup (N m d K : ℤ) (hK : 1 ≤ K) :
    deferred_cost_val K = K ∧
      speedup_factor N m K d = regular_cost_val N m K d / (K : ℝ) ∧
      (∀ K2 : ℤ, 1 ≤ max 1 (deferred_cost_val K2)) := by
  refine ⟨by simp [deferred_cost_val, mem_part], ?_, fun K2 => le_max_left 1 _⟩
  have hmax : max 1 (deferred_cost_val K) = K := by
    simp [deferred_cost_val, mem_part, max_eq_right hK]
  rw [speedup_factor, hmax]

/-- Witness for C2 at `K = 5` (with `N = 10, m = 2, d = 3`). -/
theorem deferred_cost_and_speedup_witness :
    1 ≤ (5 : ℤ) ∧
      (deferred_cost_val 5 = 5 ∧
        speedup_factor 10 2 5 3 = regular_cost_val 10 2 5 3 / ((5 : ℤ) : ℝ) ∧
        (∀ K2 : ℤ, 1 ≤ max 1 (deferred_cost_val K2))) :=
  ⟨by decide, deferred_cost_and_speedup 10 2 3 5 (by decide)⟩

/-- Counterexample to claim C3: with `m = N` (here `N = m = 10`, `K = 1`,
`disk_seek_cost = 1`) the code does not raise any error; the `max(1, N - m)`
clamp silently turns the logarithm argument into 1, and the formulas evaluate
to concrete results (`disk_part = 0`, `regular_cost = 2`, `speedup = 2`). -/
theorem update_cost_clamps_at_m_eq_N :
    disk_part 10 10 1 = 0 ∧ regular_cost_val 10 10 1 1 = 2 ∧
      speedup_factor 10 10 1 1 = 2 := by
  have h0 : disk_part 10 10 1 = 0 := by
    have hmax : max (1 : ℤ) (10 - 10) = 1 := by decide
    rw [disk_part, hmax]
    simp [Real.logb_one]
  have h1 : regular_cost_val 10 10 1 1 = 2 := by
    rw [regular_cost_val, h0]
    norm_num [mem_part]
  refine ⟨h0, h1, ?_⟩
  rw [speedup_factor, h1]
  norm_num [deferred_cost_val, mem_part]

/-- Claim C3 amended: calling the update-cost computation with `m = N` does
not raise; the `max(1, N - m)` clamp makes `disk_part = 0` and the code
silently computes `regular_cost = 2K` and `speedup = 2` (for `K ≥ 1`). -/
theorem update_cost_m_eq_N_result (N K d : ℤ) (hK : 1 ≤ K) :
    disk_part N N d = 0 ∧ regular_cost_val N N K d = 2 * (K : ℝ) ∧
      speedup_factor N N K d = 2 := by
  have h0 : disk_part N N d = 0 := by
    have hmax : max (1 : ℤ) (N - N) = 1 := by rw [sub_self]; decide
    rw [disk_part, hmax]
    simp [Real.logb_one]
  have h1 : regular_cost_val N N K d = 2 * (K : ℝ) := by
    rw [regular_cost_val, h0]
    norm_num [mem_part]
  have hKR : (0 : ℝ) < (K : ℝ) := by exact_mod_cast lt_of_lt_of_le zero_lt_one hK
  have hmaxK : max 1 (deferred_cost_val K) = K := by
    simp [deferred_cost_val, mem_part, max_eq_right hK]
  refine ⟨h0, h1, ?_⟩
  rw [speedup_factor, h1, hmaxK]
  field_simp

/-- Witness for the amended C3 at `N = 10, K = 1, d = 1`. -/
theorem update_cost_m_eq_N_result_witness :
    1 ≤ (1 : ℤ) ∧
      (disk_part 10 10 1 = 0 ∧ regular_cost_val 10 10 1 1 = 2 * ((1 : ℤ) : ℝ) ∧
        speedup_factor 10 10 1 1 = 2) :=
  ⟨by decide, update_cost_m_eq_N_result 10 1 1 (by decide)⟩

/-- Claim C4: for fixed `N, m, disk_seek_cost` in the valid domain, the
speedup as a function of `K` is non-increasing: `K1 ≤ K2` implies
`speedup(K2) ≤ speedup(K1)`. -/
theorem speedup_antitone_in_K (N m d K1 K2 : ℤ)
    (hN : 1 ≤ N) (hm1 : 1 ≤ m) (hmN : m < N) (hd : 1 ≤ d)
    (hK1 : 1 ≤ K1) (hK12 : K1 ≤ K2) :
    speedup_factor N m K2 d ≤ speedup_factor N m K1 d := by
  have hK2 : 1 ≤ K2 := le_trans hK1 hK12
  have hD : 0 ≤ disk_part N m d := by
    apply mul_nonneg
    · apply Real.logb_nonneg (by norm_num)
      have h1 : (1 : ℤ) ≤ max 1 (N - m) := le_max_left _ _
      exact_mod_cast h1
    · have hd0 : (0 : ℤ) ≤ d := by linarith
      exact_mod_cast hd0
  have hmax1 : max 1 (deferred_cost_val K1) = K1 := by
    simp [deferred_cost_val, mem_part, max_eq_right hK1]
  have hmax2 : max 1 (deferred_cost_val K2) = K2 := by
    simp [deferred_cost_val, mem_part, max_eq_right hK2]
  have hK1R : (0 : ℝ) < (K1 : ℝ) := by exact_mod_cast lt_of_lt_of_le zero_lt_one hK1
  have hK2R : (0 : ℝ) < (K2 : ℝ) := by exact_mod_cast lt_of_lt_of_le zero_lt_one hK2
  have hK12R : (K1 : ℝ) ≤ (K2 : ℝ) := by exact_mod_cast hK12
  rw [speedup_factor, speedup_factor, hmax1, hmax2, regular_cost_val, regular_cost_val]
  rw [div_le_div_iff₀ hK2R hK1R]
  simp only [mem_part, Int.cast_one]
  nlinarith [mul_nonneg hD (sub_nonneg.mpr hK12R)]

/-- Witness for C4 at `N = 10, m = 5, d = 1, K1 = 1, K2 = 2`. -/
theorem speedup_antitone_in_K_witness :
    (1 ≤ (10 : ℤ) ∧ 1 ≤ (5 : ℤ) ∧ (5 : ℤ) < 10 ∧ 1 ≤ (1 : ℤ) ∧ (1 : ℤ) ≤ 2) ∧
      speedup_factor 10 5 2 1 ≤ speedup_factor 10 5 1 1 :=
  ⟨⟨by decide, by decide, by decide, by decide, by decide⟩,
    speedup_antitone_in_K 10 5 1 1 2 (by decide) (by decide) (by decide) (by decide)
      (by decide) (by decide)⟩

/-- Embeds `k_range = list(range(1, 21))` from src/app.py. -/
def k_range : List ℤ := (List.range 20).map (fun i => (i : ℤ) + 1)

/-- Embeds the body of the chart loop in src/app.py:
`reg = 1 + (np.log10(max(1, N_tuples - m_memtable)) * disk_seek_cost) + (1 * (2 * k - 1))`,
`defn = (1 * k)`, appending `(k, reg / max(1, defn))`. -/
noncomputable def chart_point (N m d k : ℤ) : ℤ × ℝ :=
  (k, (1 + Real.logb 10 ((max 1 (N - m) : ℤ) : ℝ) * (d : ℝ) + 1 * (2 * (k : ℝ) - 1)) /
      ((max 1 (1 * k) : ℤ) : ℝ))

/-- Embeds `chart_data`: the chart loop of src/app.py mapped over `k_range`. -/
noncomputable def chart_data (N m d : ℤ) : List (ℤ × ℝ) :=
  k_range.map (chart_point N m d)

/-- Claim C5: the parametric sweep over `K = 1..20` produces the
`(K, speedup)` pairs in input order, and for every `K` its recorded speedup
equals the single-point computation `speedup_factor` at the same
`N, m, disk_seek_cost`. -/
theorem chart_data_refines_speedup (N m d : ℤ) :
    chart_data N m d = k_range.map (fun k => (k, speedup_factor N m k d)) ∧
      (chart_data N m d).map Prod.fst = k_range ∧
      k_range = [1, 2, 3, 4, 5, 6, 7, 8, 9, 10, 11, 12, 13, 14, 15, 16, 17, 18, 19, 20] := by
  have hpt : chart_point N m d = fun k => (k, speedup_factor N m k d) := by
    funext k
    rw [chart_point, speedup_factor, regular_cost_val, disk_part, deferred_cost_val]
    norm_num [mem_part]
  refine ⟨by rw [chart_data, hpt], ?_, by decide⟩
  rw [chart_data, hpt, List.map_map]
  show k_range.map (fun k => k) = k_range
  exact List.map_id' k_range

/-- Embeds `throughput_std = 20000 + (write_pct * 100)` from src/app.py. -/
def throughput_std (w : ℤ) : ℤ := 20000 + w * 100

/-- Embeds `throughput_def = 20000 + (write_pct * 1200)` from src/app.py. -/
def throughput_def (w : ℤ) : ℤ := 20000 + w * 1200

/-- Embeds `latency_std = 5.0` from src/app.py. -/
def latency_std : ℚ := 5

/-- Embeds `latency_def = 5.0 + (write_pct * 0.05)` from src/app.py; the
literal `0.05` is the exact rational 1/20. -/
def latency_def (w : ℤ) : ℚ := 5 + (w : ℚ) * 0.05

/-- The standard throughput exactly as the spec words it. -/
def spec_throughput_standard (w : ℤ) : ℤ := 20000 + w * 100

/-- The deferred throughput exactly as the spec words it. -/
def spec_throughput_deferred (w : ℤ) : ℤ := 20000 + w * 1200

/-- The standard read latency exactly as the spec words it (constant 5.0 ms). -/
def spec_latency_standard : ℚ := 5

/-- The deferred read latency exactly as the spec words it:
`5.0 + write_pct * 0.05`. -/
def spec_latency_deferred (w : ℤ) : ℚ := 5 + (w : ℚ) * 0.05

/-- Claim C6: for every `write_pct` in `[0, 100]`, the tradeoff model computes
`throughput_standard = 20000 + write_pct * 100`,
`throughput_deferred = 20000 + write_pct * 1200`, `latency_standard = 5.0`
(constant) and `latency_deferred = 5.0 + write_pct * 0.05`. -/
theorem tradeoff_formulas (w : ℤ) (h0 : 0 ≤ w) (h100 : w ≤ 100) :
    throughput_std w = spec_throughput_standard w ∧
      throughput_def w = spec_throughput_deferred w ∧
      latency_std = spec_latency_standard ∧
      latency_def w = spec_latency_deferred w :=
  ⟨rfl, rfl, rfl, rfl⟩

/-- Witness for C6 at `write_pct = 50`. -/
theorem tradeoff_formulas_witness :
    (0 ≤ (50 : ℤ) ∧ (50 : ℤ) ≤ 100) ∧
      (throughput_std 50 = spec_throughput_standard 50 ∧
        throughput_def 50 = spec_throughput_deferred 50 ∧
        latency_std = spec_latency_standard ∧
        latency_def 50 = spec_latency_deferred 50) :=
  ⟨⟨by decide, by decide⟩, tradeoff_formulas 50 (by decide) (by decide)⟩

/-- The two branches of the tradeoff verdict shown by src/app.py. -/
inductive Verdict where
  | writeHeavy
  | readHeavy
deriving DecidableEq

/-- Embeds the branch `if write_pct > 50: st.success(write-heavy verdict)
else: st.warning(read-heavy verdict)` from src/app.py. -/
def tradeoff_verdict (w : ℤ) : Verdict :=
  if 50 < w then Verdict.writeHeavy else Verdict.readHeavy

/-- Claim C9: the tradeoff verdict is a pure threshold on `write_pct`:
strictly above 50 the write-heavy (deferred-favoring) verdict is produced,
and at or below 50 (including exactly 50) the read-heavy (standard-favoring)
verdict is produced. -/
theorem verdict_threshold (w : ℤ) :
    (50 < w → tradeoff_verdict w = Verdict.writeHeavy) ∧
      (w ≤ 50 → tradeoff_verdict w = Verdict.readHeavy) := by
  constructor
  · intro h
    simp [tradeoff_verdict, h]
  · intro h
    simp [tradeoff_verdict, not_lt.mpr h]

/-- Witness for C9 at `write_pct = 90` and at the boundary `write_pct = 50`. -/
theorem verdict_threshold_witness :
    tradeoff_verdict 90 = Verdict.writeHeavy ∧ tradeoff_verdict 50 = Verdict.readHeavy :=
  ⟨(verdict_threshold 90).1 (by decide), (verdict_threshold 50).2 (by decide)⟩

/-- Modelled from the spec: the WriteAmplificationSimulator has no code in
src/app.py (the repository's only source file contains no amplification
series), so the baseline value is taken from the spec's formula
`baseline_wa[t] = log10(write_load) * 2.5 + (512 / flush_threshold_mb) + noise[t]`,
with the per-tick noise kept abstract as a function `noise : ℕ → ℝ`. -/
noncomputable def baseline_wa (write_load flush_threshold_mb : ℝ) (noise : ℕ → ℝ)
    (t : ℕ) : ℝ :=
  Real.logb 10 write_load * 2.5 + 512 / flush_threshold_mb + noise t

/-- Modelled from the spec: the write-amplification series of 60 one-second
ticks; when optimization is enabled the optimized value at tick `t` is
`baseline_wa[t] * 0.82`, otherwise it is absent. -/
noncomputable def amplification_series (write_load flush_threshold_mb : ℝ)
    (noise : ℕ → ℝ) (optimization_enabled : Bool) : List (ℕ × ℝ × Option ℝ) :=
  (List.range 60).map (fun t =>
    (t, baseline_wa write_load flush_threshold_mb noise t,
      if optimization_enabled then
        some (baseline_wa write_load flush_threshold_mb noise t * 0.82)
      else none))

/-- Claim C7: with optimization enabled the amplification series has exactly
60 points, and at every time step `t < 60` the optimized value equals exactly
`baseline_wa[t] * 0.82`. -/
theorem amplification_series_scaling (wl fmb : ℝ) (noise : ℕ → ℝ) (t : ℕ)
    (ht : t < 60) :
    (amplification_series wl fmb noise true).length = 60 ∧
      (amplification_series wl fmb noise true)[t]? =
        some (t, baseline_wa wl fmb noise t, some (baseline_wa wl fmb noise t * 0.82)) := by
  constructor
  · simp [amplification_series]
  · simp [amplification_series, List.getElem?_map, List.getElem?_range, ht]

/-- Witness for C7 at `t = 0` with `write_load = 1`, `flush_threshold_mb = 1`
and zero noise. -/
theorem amplification_series_scaling_witness :
    (0 : ℕ) < 60 ∧
      ((amplification_series 1 1 (fun _ => 0) true).length = 60 ∧
        (amplification_series 1 1 (fun _ => 0) true)[0]? =
          some (0, baseline_wa 1 1 (fun _ => 0) 0,
            some (baseline_wa 1 1 (fun _ => 0) 0 * 0.82))) :=
  ⟨by decide, amplification_series_scaling 1 1 (fun _ => 0) 0 (by decide)⟩

/-- Claim C10: for every integer `N`, every integer `m` (including the
invalid cases `m ≥ N` or `m ≤ 0`), every `K ≥ 1` and valid
`disk_seek_cost ≥ 1`, the cost computation is total: the clamp keeps the
log10 argument at least 1 (so `disk_part ≥ 0`), and the clamp keeps the
speedup divisor at least 1, so the division is by a nonzero quantity
(`speedup * divisor = regular_cost`). -/
theorem cost_model_total (N m K d : ℤ) (hK : 1 ≤ K) (hd : 1 ≤ d) :
    1 ≤ max 1 (N - m) ∧ 0 ≤ disk_part N m d ∧
      1 ≤ max 1 (deferred_cost_val K) ∧
      speedup_factor N m K d * ((max 1 (deferred_cost_val K) : ℤ) : ℝ) =
        regular_cost_val N m K d := by
  refine ⟨le_max_left _ _, ?_, le_max_left _ _, ?_⟩
  · apply mul_nonneg
    · apply Real.logb_nonneg (by norm_num)
      have h1 : (1 : ℤ) ≤ max 1 (N - m) := le_max_left _ _
      exact_mod_cast h1
    · have hd0 : (0 : ℤ) ≤ d := by linarith
      exact_mod_cast hd0
  · have hpos : (0 : ℤ) < max 1 (deferred_cost_val K) :=
      lt_of_lt_of_le zero_lt_one (le_max_left _ _)
    have hne : ((max 1 (deferred_cost_val K) : ℤ) : ℝ) ≠ 0 := by
      exact_mod_cast ne_of_gt hpos
    rw [speedup_factor, div_mul_cancel₀ _ hne]

/-- Witness for C10 at the invalid configuration `N = 0, m = 5` (so `m > N`)
with `K = 1, d = 1`. -/
theorem cost_model_total_witness :
    (1 ≤ (1 : ℤ) ∧ 1 ≤ (1 : ℤ)) ∧
      (1 ≤ max 1 ((0 : ℤ) - 5) ∧ 0 ≤ disk_part 0 5 1 ∧
        1 ≤ max 1 (deferred_cost_val 1) ∧
        speedup_factor 0 5 1 1 * ((max 1 (deferred_cost_val 1) : ℤ) : ℝ) =
          regular_cost_val 0 5 1 1) :=
  ⟨⟨by decide, by decide⟩, cost_model_total 0 5 1 1 (by decide) (by decide)⟩

/-- Lower bound on a base-10 logarithm from an integer power comparison. -/
theorem lt_logb_of_pow_lt (x : ℝ) (p q : ℕ) (hq : 0 < q) (hx : 0 < x)
    (h : (10 : ℝ) ^ p < x ^ q) : (p : ℝ) / (q : ℝ) < Real.logb 10 x := by
  have hlog10 : (0 : ℝ) < Real.log 10 := Real.log_pos (by norm_num)
  have hqR : (0 : ℝ) < (q : ℝ) := by exact_mod_cast hq
  have hpow : Real.log ((10 : ℝ) ^ p) < Real.log (x ^ q) :=
    Real.log_lt_log (by positivity) h
  rw [Real.log_pow, Real.log_pow] at hpow
  rw [← Real.log_div_log, div_lt_div_iff₀ hqR hlog10,
    mul_comm (Real.log x) (q : ℝ)]
  exact hpow

/-- Upper bound on a base-10 logarithm from an integer power comparison. -/
theorem logb_lt_of_pow_lt (x : ℝ) (p q : ℕ) (hq : 0 < q) (hx : 0 < x)
    (h : x ^ q < (10 : ℝ) ^ p) : Real.logb 10 x < (p : ℝ) / (q : ℝ) := by
  have hlog10 : (0 : ℝ) < Real.log 10 := Real.log_pos (by norm_num)
  have hqR : (0 : ℝ) < (q : ℝ) := by exact_mod_cast hq
  have hpow : Real.log (x ^ q) < Real.log ((10 : ℝ) ^ p) :=
    Real.log_lt_log (by positivity) h
  rw [Real.log_pow, Real.log_pow] at hpow
  rw [← Real.log_div_log, div_lt_div_iff₀ hlog10 hqR,
    mul_comm (Real.log x) (q : ℝ)]
  exact hpow

/-- Rational enclosure of `log10 9900000`, the logarithm in the spec's worked
example: it lies strictly between 6.9956 and 6.9957. -/
theorem logb_9900000_bounds :
    (69956 : ℝ) / 10000 < Real.logb 10 9900000 ∧
      Real.logb 10 9900000 < (69957 : ℝ) / 10000 := by
  have hlbN : (10 : ℕ) ^ 69956 < 9900000 ^ 10000 := by norm_num
  have hubN : (9900000 : ℕ) ^ 10000 < 10 ^ 69957 := by norm_num
  have hlbR : (10 : ℝ) ^ (69956 : ℕ) < (9900000 : ℝ) ^ (10000 : ℕ) := by
    exact_mod_cast hlbN
  have hubR : (9900000 : ℝ) ^ (10000 : ℕ) < (10 : ℝ) ^ (69957 : ℕ) := by
    exact_mod_cast hubN
  constructor
  · have h := lt_logb_of_pow_lt 9900000 69956 10000 (by norm_num) (by norm_num) hlbR
    exact_mod_cast h
  · have h := logb_lt_of_pow_lt 9900000 69957 10000 (by norm_num) (by norm_num) hubR
    exact_mod_cast h

/-- Enclosure of `disk_part` at the spec's worked example
`N = 10000000, m = 100000, disk_seek_cost = 50`. -/
theorem disk_part_example_bounds :
    349.78 < disk_part 10000000 100000 50 ∧
      disk_part 10000000 100000 50 < 349.785 := by
  have hmax : max (1 : ℤ) (10000000 - 100000) = 9900000 := by norm_num
  have hval : disk_part 10000000 100000 50 = Real.logb 10 9900000 * 50 := by
    rw [disk_part, hmax]
    norm_num
  obtain ⟨hlb, hub⟩ := logb_9900000_bounds
  rw [hval]
  constructor
  · linarith
  · linarith

/-- Value of the regular cost at the spec's worked example, relative to
`disk_part`. -/
theorem regular_cost_example_eq :
    regular_cost_val 10000000 100000 5 50 = disk_part 10000000 100000 50 + 10 := by
  rw [regular_cost_val]
  norm_num [mem_part]
  ring

/-- Value of the speedup at the spec's worked example, relative to the
regular cost. -/
theorem speedup_example_eq :
    speedup_factor 10000000 100000 5 50 = regular_cost_val 10000000 100000 5 50 / 5 := by
  have hmax : max (1 : ℤ) (deferred_cost_val 5) = 5 := by
    norm_num [deferred_cost_val, mem_part]
  rw [speedup_factor, hmax]
  norm_num

/-- Counterexample to claim C8: at `N = 10000000, m = 100000, K = 5,
disk_seek_cost = 50` the code's values are not the spec's stated numbers:
`disk_part` is more than 0.5 away from 348.96 (its true value is about
349.78), `regular_cost` more than 0.5 away from 358.96, and the speedup more
than 0.1 away from 71.79. -/
theorem example_values_counterexample :
    (1 / 2 : ℝ) < |disk_part 10000000 100000 50 - 348.96| ∧
      (1 / 2 : ℝ) < |regular_cost_val 10000000 100000 5 50 - 358.96| ∧
      (1 / 10 : ℝ) < |speedup_factor 10000000 100000 5 50 - 71.79| := by
  obtain ⟨hlb, hub⟩ := disk_part_example_bounds
  have hreg := regular_cost_example_eq
  have hsp := speedup_example_eq
  refine ⟨?_, ?_, ?_⟩
  · exact lt_of_lt_of_le (by linarith) (le_abs_self _)
  · exact lt_of_lt_of_le (by linarith) (le_abs_self _)
  · exact lt_of_lt_of_le (by linarith) (le_abs_self _)

/-- Claim C8 amended: at `N = 10000000, m = 100000, K = 5,
disk_seek_cost = 50` the cost model yields `disk_part ≈ 349.78`,
`regular_cost ≈ 359.78`, `deferred_cost = 5` and `speedup ≈ 71.96`
(each approximation within 0.01); these are the values of
`log10(9900000) * 50` and the quantities derived from it. -/
theorem example_values_correct :
    |disk_part 10000000 100000 50 - 349.78| < 0.01 ∧
      |regular_cost_val 10000000 100000 5 50 - 359.78| < 0.01 ∧
      deferred_cost_val 5 = 5 ∧
      |speedup_factor 10000000 100000 5 50 - 71.96| < 0.01 := by
  obtain ⟨hlb, hub⟩ := disk_part_example_bounds
  have hreg := regular_cost_example_eq
  have hsp := speedup_example_eq
  refine ⟨abs_lt.mpr ⟨by linarith, by linarith⟩,
    abs_lt.mpr ⟨by linarith, by linarith⟩, by decide,
    abs_lt.mpr ⟨by linarith, by linarith⟩⟩

end LSMDemo
